import Mathlib

/-!
Shallow embedding of the rust-server-project repository, covering:

* the service lifecycle state machine (`components/src/service.rs`),
* the chaos-monkey test message (`machine/async_machine/src/test_message.rs`),
* the forwarder test actor (`machine/async_machine/src/forwarder.rs`),
* the machine adapter driver loop (`server-core/src/machine_adpter.rs`),
* the background-task cancellation wrapper (`server-core/src/background_task.rs`),
* the network controller's connection handling (`components/src/network.rs`),
* the global configuration cells (`machine-foundation/src/machine_adapter.rs`,
  `server-core/src/lib.rs`).

Rust functions become Lean functions; `&mut self` methods become functions
from the old state to the pair (return value, new state); Rust `Result` is
`Except`; Rust panics in the forwarder become `Except.error`.
-/

namespace RustServer

/-! ## Service lifecycle (components/src/service.rs) -/

/-- ServiceState is the state of the service (`service.rs`, `enum ServiceState`). -/
inductive ServiceState where
  | Init
  | Started
  | Running
  | Draining
  | Stopped
deriving DecidableEq, Repr, Fintype

/-- Errors produced by a service (`service.rs`, `enum ServiceError`). -/
inductive ServiceError where
  | InvalidStateTransition (curr attempted : ServiceState)
  | Message (s : String)
deriving DecidableEq, Repr

namespace ServiceState

/-- ServiceState::can_start — true iff the state is Init. -/
def can_start (s : ServiceState) : Bool := s = ServiceState.Init

/-- ServiceState::can_run — true iff the state is Started. -/
def can_run (s : ServiceState) : Bool := s = ServiceState.Started

/-- ServiceState::can_drain — true iff the state is Running. -/
def can_drain (s : ServiceState) : Bool := s = ServiceState.Running

/-- ServiceState::can_stop — true iff the state is not Stopped. -/
def can_stop (s : ServiceState) : Bool := s ≠ ServiceState.Stopped

/-- ServiceState::is_running. -/
def is_running (s : ServiceState) : Bool := s = ServiceState.Running

/-- ServiceState::start_with_notification with no notifier: on success the
state becomes Started, otherwise the error is returned and the state stays.
The pair is (returned result, state after the call). -/
def start (s : ServiceState) : Except ServiceError Unit × ServiceState :=
  if s.can_start then (Except.ok (), ServiceState.Started)
  else (Except.error (ServiceError.InvalidStateTransition s ServiceState.Started), s)

/-- ServiceState::run_with_notification with no notifier. Note that the
source constructs the failure value with `Self::Started` as the attempted
state (service.rs line 115). -/
def run (s : ServiceState) : Except ServiceError Unit × ServiceState :=
  if s.can_run then (Except.ok (), ServiceState.Running)
  else (Except.error (ServiceError.InvalidStateTransition s ServiceState.Started), s)

/-- ServiceState::drain_with_notification with no notifier. The source
constructs the failure value with `Self::Started` (service.rs line 130). -/
def drain (s : ServiceState) : Except ServiceError Unit × ServiceState :=
  if s.can_drain then (Except.ok (), ServiceState.Draining)
  else (Except.error (ServiceError.InvalidStateTransition s ServiceState.Started), s)

/-- ServiceState::stop_with_notification with no notifier. The source
constructs the failure value with `Self::Started` (service.rs line 145). -/
def stop (s : ServiceState) : Except ServiceError Unit × ServiceState :=
  if s.can_stop then (Except.ok (), ServiceState.Stopped)
  else (Except.error (ServiceError.InvalidStateTransition s ServiceState.Started), s)

end ServiceState

/-- The four lifecycle operations a caller can invoke on a ServiceState. -/
inductive ServiceOp where
  | start
  | run
  | drain
  | stop
deriving DecidableEq, Repr, Fintype

/-- Apply one lifecycle operation to a state. -/
def applyServiceOp (op : ServiceOp) (s : ServiceState) :
    Except ServiceError Unit × ServiceState :=
  match op with
  | ServiceOp.start => s.start
  | ServiceOp.run => s.run
  | ServiceOp.drain => s.drain
  | ServiceOp.stop => s.stop

/-- Index of a state in (Init, Started, Running, Draining, Stopped). -/
def stateIdx : ServiceState → Nat
  | ServiceState.Init => 0
  | ServiceState.Started => 1
  | ServiceState.Running => 2
  | ServiceState.Draining => 3
  | ServiceState.Stopped => 4

/-- The sequence of states observed along a sequence of lifecycle calls,
starting from `s` (the state after each call, head first). -/
def serviceTrajectory (s : ServiceState) : List ServiceOp → List ServiceState
  | [] => [s]
  | op :: ops => s :: serviceTrajectory (applyServiceOp op s).2 ops

/-- The guard of each operation, as the transition table states it. -/
def serviceGuard (op : ServiceOp) (s : ServiceState) : Bool :=
  match op with
  | ServiceOp.start => s = ServiceState.Init
  | ServiceOp.run => s = ServiceState.Started
  | ServiceOp.drain => s = ServiceState.Running
  | ServiceOp.stop => s ≠ ServiceState.Stopped

/-- The target state of each operation. -/
def serviceTarget : ServiceOp → ServiceState
  | ServiceOp.start => ServiceState.Started
  | ServiceOp.run => ServiceState.Running
  | ServiceOp.drain => ServiceState.Draining
  | ServiceOp.stop => ServiceState.Stopped

theorem applyServiceOp_idx_mono (op : ServiceOp) (s : ServiceState) :
    stateIdx s ≤ stateIdx (applyServiceOp op s).2 := by
  cases op <;> cases s <;> decide

theorem serviceTrajectory_chain (s : ServiceState) (ops : List ServiceOp) :
    List.Chain' (fun a b => stateIdx a ≤ stateIdx b) (serviceTrajectory s ops) := by
  induction ops generalizing s with
  | nil => simp [serviceTrajectory]
  | cons op ops ih =>
      refine List.Chain'.cons' (ih _) ?_
      intro b hb
      have hhead : (serviceTrajectory (applyServiceOp op s).2 ops).head? =
          some (applyServiceOp op s).2 := by
        cases ops <;> rfl
      rw [hhead] at hb
      cases hb
      exact applyServiceOp_idx_mono op s

/-- C1: for every ServiceState s and every lifecycle operation, the call
succeeds exactly when the transition table permits it, a successful call
moves the state to the operation's target (Started, Running, Draining,
Stopped respectively), a refused call returns an error and leaves the state
unchanged, and along any sequence of calls the index of the observed states
in (Init, Started, Running, Draining, Stopped) is non-decreasing. -/
theorem serviceState_transition_table_and_monotone :
    (∀ (op : ServiceOp) (s : ServiceState),
      ((applyServiceOp op s).1.isOk = serviceGuard op s) ∧
      (applyServiceOp op s).2 =
        (if serviceGuard op s then serviceTarget op else s) ∧
      (applyServiceOp op s).1 =
        (if serviceGuard op s then Except.ok ()
         else Except.error
           (ServiceError.InvalidStateTransition s ServiceState.Started))) ∧
    (∀ (s : ServiceState) (ops : List ServiceOp),
      List.Chain' (fun a b => stateIdx a ≤ stateIdx b) (serviceTrajectory s ops)) := by
  constructor
  · intro op s
    cases op <;> cases s <;> exact ⟨rfl, rfl, rfl⟩
  · exact serviceTrajectory_chain

/-- C2: the failing transitions do not report the attempted target state.
`run`, `drain` and `stop` all construct their error as
`InvalidStateTransition(current, Started)` (service.rs lines 115, 130, 145),
so a refused `run` from Init reports attempted = Started, not Running, a
refused `drain` from Started reports Started, not Draining, and a refused
`stop` from Stopped reports Started, not Stopped. Only `start` reports its
true target. -/
theorem invalid_transition_error_reports_started :
    ServiceState.run ServiceState.Init =
      (Except.error
        (ServiceError.InvalidStateTransition ServiceState.Init ServiceState.Started),
       ServiceState.Init) ∧
    ServiceState.drain ServiceState.Started =
      (Except.error
        (ServiceError.InvalidStateTransition ServiceState.Started ServiceState.Started),
       ServiceState.Started) ∧
    ServiceState.stop ServiceState.Stopped =
      (Except.error
        (ServiceError.InvalidStateTransition ServiceState.Stopped ServiceState.Started),
       ServiceState.Stopped) ∧
    ServiceState.Started ≠ ServiceState.Running ∧
    ServiceState.Started ≠ ServiceState.Draining ∧
    ServiceState.Started ≠ ServiceState.Stopped := by
  refine ⟨rfl, rfl, rfl, by decide, by decide, by decide⟩

/-! ## Test messages (machine/async_machine/src/test_message.rs)

`TestMessage` is parameterized by the sender handle type `S`
(`TestMessageSender` in the source). The `counter` and `max` fields are
`u32`; `advance` never increments past `max.max 1` and never decrements
below 0, so no wrap-around can occur and `Nat` models them exactly. -/

/-- Structure passed inside some test messages (`TestStruct`). -/
structure TestStruct where
  from_id : Nat
  received_by : Nat
deriving DecidableEq, Repr

/-- Kind of mutation a ChaosMonkey message applies (`ChaosMonkeyMutation`). -/
inductive ChaosMonkeyMutation where
  | Increment
  | Decrement
deriving DecidableEq, Repr

/-- The test instruction set (`enum TestMessage`). -/
inductive TestMessage (S : Type) where
  | Test
  | TestData (n : Nat)
  | TestStructMsg (t : TestStruct)
  | TestCallback (s : S) (t : TestStruct)
  | AddSender (s : S)
  | AddSenders (senders : List S)
  | RemoveAllSenders
  | Notify (s : S) (n : Nat)
  | ForwardingMultiplier (n : Nat)
  | ChaosMonkey (counter max : Nat) (mutation : ChaosMonkeyMutation)
deriving DecidableEq, Repr

namespace TestMessage

/-- TestMessage::advance_chaos_monkey. The source matches on `counter` with
arms `0`, `c if c >= max`, `_`, in that order. -/
def advance_chaos_monkey {S : Type} (counter max : Nat)
    (mutation : ChaosMonkeyMutation) : TestMessage S :=
  if counter = 0 then
    match mutation with
    | ChaosMonkeyMutation.Increment => ChaosMonkey (counter + 1) max mutation
    | ChaosMonkeyMutation.Decrement => ChaosMonkey counter max mutation
  else if max ≤ counter then
    match mutation with
    | ChaosMonkeyMutation.Increment =>
        ChaosMonkey counter max ChaosMonkeyMutation.Decrement
    | ChaosMonkeyMutation.Decrement => ChaosMonkey (counter - 1) max mutation
  else
    match mutation with
    | ChaosMonkeyMutation.Increment => ChaosMonkey (counter + 1) max mutation
    | ChaosMonkeyMutation.Decrement => ChaosMonkey (counter - 1) max mutation

/-- TestMessage::advance — every variant but ChaosMonkey is returned as is. -/
def advance {S : Type} : TestMessage S → TestMessage S
  | ChaosMonkey counter max mutation => advance_chaos_monkey counter max mutation
  | m => m

/-- TestMessage::can_advance — true iff advancing mutates the message. -/
def can_advance {S : Type} : TestMessage S → Bool
  | ChaosMonkey counter _ mutation =>
      counter ≠ 0 || mutation ≠ ChaosMonkeyMutation.Decrement
  | _ => false

/-- Iterated advance: `advanceIter k m` applies `advance` k times to m. -/
def advanceIter {S : Type} : Nat → TestMessage S → TestMessage S
  | 0, m => m
  | k + 1, m => advance (advanceIter k m)

end TestMessage

/-- The state the claim predicts after k advances of
`ChaosMonkey{counter: 0, max, mutation: Increment}`: count up to max, flip
to Decrement without changing the counter, count back down to 0, then stay.
This definition follows the words of the claim, for comparison against the
source-level `advance`. -/
def specChaosTrajectory (S : Type) (max k : Nat) : TestMessage S :=
  if k ≤ max then TestMessage.ChaosMonkey k max ChaosMonkeyMutation.Increment
  else if k ≤ 2 * max + 1 then
    TestMessage.ChaosMonkey (2 * max + 1 - k) max ChaosMonkeyMutation.Decrement
  else TestMessage.ChaosMonkey 0 max ChaosMonkeyMutation.Decrement

/-- C4 counterexample: with max = 0 the claim fails. The claim says the
counter is incremented only until it equals max and then the mutation flips
without changing the counter; but from `ChaosMonkey{counter: 0, max: 0,
mutation: Increment}` (counter already equal to max) one advance yields
`ChaosMonkey{counter: 1, max: 0, mutation: Increment}` — the counter
overshoots max and the mutation has not flipped, because the source's
`counter == 0` arm takes precedence over the `c >= max` arm. -/
theorem chaosMonkey_overshoots_when_max_zero :
    TestMessage.advance (S := Unit)
        (TestMessage.ChaosMonkey 0 0 ChaosMonkeyMutation.Increment) =
      TestMessage.ChaosMonkey 1 0 ChaosMonkeyMutation.Increment ∧
    ¬ (1 ≤ 0) ∧
    TestMessage.advance (S := Unit)
        (TestMessage.ChaosMonkey 0 0 ChaosMonkeyMutation.Increment) ≠
      TestMessage.ChaosMonkey 0 0 ChaosMonkeyMutation.Decrement := by
  refine ⟨rfl, by decide, by decide⟩

/-- C4 amended: for max ≥ 1 the claimed trajectory is exact: repeatedly
advancing `ChaosMonkey{counter: 0, max, mutation: Increment}` increments the
counter by 1 per step until counter = max, then flips the mutation to
Decrement without changing the counter, then decrements by 1 per step until
counter = 0, after which the message is terminal: `can_advance` is false and
`advance` returns the same-valued message. (For max = 0 the counter first
overshoots to 1, then flips, then returns to 0.) -/
theorem chaosMonkey_trajectory (max k : Nat) (hmax : 1 ≤ max) :
    TestMessage.advanceIter (S := Unit) k
        (TestMessage.ChaosMonkey 0 max ChaosMonkeyMutation.Increment) =
      specChaosTrajectory Unit max k ∧
    TestMessage.can_advance (S := Unit)
        (TestMessage.ChaosMonkey 0 max ChaosMonkeyMutation.Decrement) = false ∧
    TestMessage.advance (S := Unit)
        (TestMessage.ChaosMonkey 0 max ChaosMonkeyMutation.Decrement) =
      TestMessage.ChaosMonkey 0 max ChaosMonkeyMutation.Decrement := by
  refine ⟨?_, by simp [TestMessage.can_advance], ?_⟩
  · induction k with
    | zero => simp [TestMessage.advanceIter, specChaosTrajectory]
    | succ k ih =>
        rw [TestMessage.advanceIter, ih]
        unfold specChaosTrajectory
        rcases Nat.lt_or_ge k max with hk | hk
        · have h1 : k ≤ max := Nat.le_of_lt hk
          have h2 : k + 1 ≤ max := hk
          simp only [h1, if_pos, h2]
          rcases Nat.eq_zero_or_pos k with hk0 | hk0
          · subst hk0
            simp [TestMessage.advance, TestMessage.advance_chaos_monkey]
          · have hkne : ¬ (k = 0) := Nat.pos_iff_ne_zero.mp hk0
            have hlt : ¬ (max ≤ k) := Nat.not_le_of_lt hk
            simp [TestMessage.advance, TestMessage.advance_chaos_monkey, hkne, hlt]
        · rcases Nat.lt_or_ge k (2 * max + 1) with hk2 | hk2
          · rcases Nat.eq_or_lt_of_le hk with hkeq | hklt
            · -- k = max: the flip step
              have h1 : k ≤ max := Nat.le_of_eq hkeq.symm
              have h2 : ¬ (k + 1 ≤ max) := by omega
              have h3 : k + 1 ≤ 2 * max + 1 := by omega
              have hkne : ¬ (k = 0) := by omega
              have hge : max ≤ k := hk
              simp only [h1, if_pos, h2, if_neg, h3, if_pos, ite_true, ite_false]
              have hcount : 2 * max + 1 - (k + 1) = k := by omega
              rw [hcount]
              simp [TestMessage.advance, TestMessage.advance_chaos_monkey, hkne, hge]
            · -- max < k ≤ 2*max: the countdown steps
              have h1 : ¬ (k ≤ max) := by omega
              have h2 : k ≤ 2 * max + 1 := by omega
              have h3 : ¬ (k + 1 ≤ max) := by omega
              have h4 : k + 1 ≤ 2 * max + 1 := by omega
              simp only [h1, if_neg, h2, if_pos, h3, h4]
              have hkne : ¬ (2 * max + 1 - k = 0) := by omega
              have harith : 2 * max + 1 - k - 1 = 2 * max + 1 - (k + 1) := by omega
              rcases Nat.lt_or_ge (2 * max + 1 - k) max with hb | hb
              · have hnb : ¬ (max ≤ 2 * max + 1 - k) := Nat.not_le_of_lt hb
                simp [TestMessage.advance, TestMessage.advance_chaos_monkey,
                  hkne, hnb, harith]
              · simp [TestMessage.advance, TestMessage.advance_chaos_monkey,
                  hkne, hb, harith]
          · -- k ≥ 2*max+1: terminal
            have h1 : ¬ (k ≤ max) := by omega
            have h3 : ¬ (k + 1 ≤ max) := by omega
            have h4 : ¬ (k + 1 ≤ 2 * max + 1) := by omega
            rcases Nat.eq_or_lt_of_le hk2 with hkeq | hklt
            · have h2eq : k ≤ 2 * max + 1 := Nat.le_of_eq hkeq.symm
              have hz : 2 * max + 1 - k = 0 := by omega
              simp only [h1, if_neg, h2eq, if_pos, h3, h4, hz]
              simp [TestMessage.advance, TestMessage.advance_chaos_monkey]
            · have h2n : ¬ (k ≤ 2 * max + 1) := by omega
              simp only [h1, if_neg, h2n, h3, h4]
              simp [TestMessage.advance, TestMessage.advance_chaos_monkey]
  · simp [TestMessage.advance, TestMessage.advance_chaos_monkey]

/-- Witness for the amended C4 theorem at max = 1, k = 2. -/
theorem chaosMonkey_trajectory_witness :
    TestMessage.advanceIter (S := Unit) 2
        (TestMessage.ChaosMonkey 0 1 ChaosMonkeyMutation.Increment) =
      specChaosTrajectory Unit 1 2 ∧
    TestMessage.can_advance (S := Unit)
        (TestMessage.ChaosMonkey 0 1 ChaosMonkeyMutation.Decrement) = false ∧
    TestMessage.advance (S := Unit)
        (TestMessage.ChaosMonkey 0 1 ChaosMonkeyMutation.Decrement) =
      TestMessage.ChaosMonkey 0 1 ChaosMonkeyMutation.Decrement :=
  chaosMonkey_trajectory 1 2 (by decide)

/-- C5 counterexample: `can_advance` and `advance` do not treat
`ChaosMonkey{0, max, Decrement}` and `ChaosMonkey{c, max, Decrement}` with
c ≥ max identically. At max = 1, c = 1: `can_advance` is false on the former
and true on the latter. At max = 1, c = 2: `advance` leaves the former at
counter 0 but takes the latter to counter 1, a different value (and not a
terminal message). -/
theorem chaosMonkey_decrement_not_terminal_above_max :
    TestMessage.can_advance (S := Unit)
        (TestMessage.ChaosMonkey 0 1 ChaosMonkeyMutation.Decrement) = false ∧
    TestMessage.can_advance (S := Unit)
        (TestMessage.ChaosMonkey 1 1 ChaosMonkeyMutation.Decrement) = true ∧
    (1 : Nat) ≤ 1 ∧
    TestMessage.advance (S := Unit)
        (TestMessage.ChaosMonkey 2 1 ChaosMonkeyMutation.Decrement) =
      TestMessage.ChaosMonkey 1 1 ChaosMonkeyMutation.Decrement ∧
    TestMessage.advance (S := Unit)
        (TestMessage.ChaosMonkey 0 1 ChaosMonkeyMutation.Decrement) =
      TestMessage.ChaosMonkey 0 1 ChaosMonkeyMutation.Decrement ∧
    TestMessage.ChaosMonkey (S := Unit) 1 1 ChaosMonkeyMutation.Decrement ≠
      TestMessage.ChaosMonkey 0 1 ChaosMonkeyMutation.Decrement := by
  refine ⟨rfl, rfl, by decide, rfl, rfl, by decide⟩

/-- C5 amended: with Decrement mutation, `can_advance` and `advance` depend
only on the counter, never on max: `can_advance` is true exactly when the
counter is nonzero, and `advance` maps counter c to c - 1 (so it fixes the
message exactly when c = 0, the only terminal case). In particular
`ChaosMonkey{0, max, Decrement}` and `ChaosMonkey{c, max, Decrement}` with
c ≥ max receive the same treatment only when c = 0 (for `can_advance`) or
c ≤ 1 (for the value `advance` produces). -/
theorem chaosMonkey_decrement_counter_only (c max : Nat) :
    TestMessage.can_advance (S := Unit)
        (TestMessage.ChaosMonkey c max ChaosMonkeyMutation.Decrement) =
      decide (c ≠ 0) ∧
    TestMessage.advance (S := Unit)
        (TestMessage.ChaosMonkey c max ChaosMonkeyMutation.Decrement) =
      TestMessage.ChaosMonkey (c - 1) max ChaosMonkeyMutation.Decrement := by
  constructor
  · simp [TestMessage.can_advance]
  · rcases Nat.eq_zero_or_pos c with hc | hc
    · subst hc
      simp [TestMessage.advance, TestMessage.advance_chaos_monkey]
    · have hcne : ¬ (c = 0) := Nat.pos_iff_ne_zero.mp hc
      by_cases hge : max ≤ c <;>
        simp [TestMessage.advance, TestMessage.advance_chaos_monkey, hcne, hge]

/-! ## Forwarder (machine/async_machine/src/forwarder.rs)

The mutable bundle of a Forwarder. The `range` field of the source (a
uniform sampler over sender indices, used only by the ChaosMonkey arm) is
not stored; instead the sampled downstream sender is passed to `receive` as
an explicit `pick` argument. Senders are modelled by an arbitrary type `S`
of handles. -/

structure ForwarderMutable (S : Type) where
  id : Nat
  senders : List S
  received_count : Nat
  send_count : Nat
  notify_count : Nat
  notify_sender : Option S
  forwarding_multiplier : Nat
  next_seq : Nat
deriving Repr

namespace ForwarderMutable

/-- The nested send loop of `handle_action`'s TestData arm: for each sender
in order, emit `TestData(send_count)` `fm` times, incrementing `send_count`
after each emission. Returns the final `send_count` and the emissions in
order. -/
def sendLoop {S : Type} : List S → Nat → Nat → Nat × List (S × TestMessage S)
  | [], _, c => (c, [])
  | s :: rest, fm, c =>
      let inner := (List.range fm).map (fun i => (s, TestMessage.TestData (c + i)))
      let r := sendLoop rest fm (c + fm)
      (r.1, inner ++ r.2)

/-- ForwarderMutable::validate_sequence — if msg is TestData, accept when
the payload equals `next_seq` (advance the cursor) or is 0 (reset the cursor
to 1), otherwise return the message as an error; every non-error path then
bumps `received_count`. -/
def validate_sequence {S : Type} (f : ForwarderMutable S) (msg : TestMessage S) :
    Except (TestMessage S) (ForwarderMutable S × TestMessage S) :=
  match msg with
  | TestMessage.TestData seq =>
      if seq = f.next_seq then
        Except.ok
          ({ f with
              next_seq := f.next_seq + 1,
              received_count := f.received_count + 1 }, msg)
      else if seq = 0 then
        Except.ok
          ({ f with
              next_seq := 1,
              received_count := f.received_count + 1 }, msg)
      else Except.error msg
  | _ => Except.ok ({ f with received_count := f.received_count + 1 }, msg)

/-- ForwarderMutable::drop_all_senders. -/
def drop_all_senders {S : Type} (f : ForwarderMutable S) : ForwarderMutable S :=
  { f with senders := [], notify_sender := none }

/-- ForwarderMutable::handle_config — configuration messages update the
bundle; any other message is handed back as an error. -/
def handle_config {S : Type} (f : ForwarderMutable S) (msg : TestMessage S) :
    Except (TestMessage S) (ForwarderMutable S) :=
  match msg with
  | TestMessage.Notify s n =>
      Except.ok { f with notify_sender := some s, notify_count := n }
  | TestMessage.AddSender s => Except.ok { f with senders := f.senders ++ [s] }
  | TestMessage.AddSenders l => Except.ok { f with senders := l }
  | TestMessage.ForwardingMultiplier n =>
      Except.ok { f with forwarding_multiplier := n }
  | TestMessage.RemoveAllSenders => Except.ok f.drop_all_senders
  | m => Except.error m

/-- ForwarderMutable::handle_action. `pick` is the downstream sender the
ChaosMonkey arm samples (`self.senders[self.get_monkey_fwd()]`). -/
def handle_action {S : Type} (f : ForwarderMutable S) (message : TestMessage S)
    (_id : Nat) (pick : Option S) :
    ForwarderMutable S × List (S × TestMessage S) :=
  match message with
  | TestMessage.ChaosMonkey c mx mu =>
      if (TestMessage.ChaosMonkey (S := S) c mx mu).can_advance then
        (f, match pick with
            | some s => [(s, (TestMessage.ChaosMonkey (S := S) c mx mu).advance)]
            | none => [])
      else
        (f, match f.notify_sender with
            | some n => [(n, TestMessage.TestData 0)]
            | none => [])
  | TestMessage.TestData _ =>
      let r := sendLoop f.senders f.forwarding_multiplier f.send_count
      ({ f with send_count := r.1 }, r.2)
  | TestMessage.TestCallback _ _ => (f, [])
  | m =>
      (f, f.senders.flatMap (fun s => List.replicate f.forwarding_multiplier (s, m)))

/-- ForwarderMutable::handle_notification — when `received_count` equals
`notify_count` and a notifier is registered, emit `TestData(received_count)`
on it. -/
def handle_notification {S : Type} (f : ForwarderMutable S) :
    List (S × TestMessage S) :=
  if f.received_count = f.notify_count then
    match f.notify_sender with
    | some n => [(n, TestMessage.TestData f.received_count)]
    | none => []
  else []

end ForwarderMutable

/-- Forwarder::receive (Machine::receive for TestMessage): configuration
messages are consumed; otherwise the sequence is validated (an invalid
TestData sequence is the panic path, modelled as `Except.error`), the action
is handled, and a notification may be appended. The result pairs the new
bundle with the emissions in order. -/
def forwarderReceive {S : Type} (f : ForwarderMutable S) (msg : TestMessage S)
    (id : Nat) (pick : Option S) :
    Except (TestMessage S) (ForwarderMutable S × List (S × TestMessage S)) :=
  match f.handle_config msg with
  | Except.ok f2 => Except.ok (f2, [])
  | Except.error msg =>
      match f.validate_sequence msg with
      | Except.ok (f2, msg) =>
          let r := f2.handle_action msg id pick
          Except.ok (r.1, r.2 ++ r.1.handle_notification)
      | Except.error m => Except.error m

namespace ForwarderMutable

theorem sendLoop_fst {S : Type} (l : List S) (fm c : Nat) :
    (sendLoop l fm c).1 = c + l.length * fm := by
  induction l generalizing c with
  | nil => simp [sendLoop]
  | cons s rest ih => simp [sendLoop, ih]; ring

theorem sendLoop_map_snd {S : Type} (l : List S) (fm c : Nat) :
    (sendLoop l fm c).2.map Prod.snd =
      (List.range (l.length * fm)).map
        (fun i => TestMessage.TestData (S := S) (c + i)) := by
  induction l generalizing c with
  | nil => simp [sendLoop]
  | cons s rest ih =>
      have hsplit : (s :: rest).length * fm = fm + rest.length * fm := by
        simp [List.length_cons]; ring
      rw [hsplit, List.range_add]
      simp only [sendLoop, List.map_append, List.map_map, ih]
      congr 1
      all_goals
        apply List.map_congr_left
        intro i _
        simp [Function.comp_apply, Nat.add_assoc]

theorem sendLoop_map_fst {S : Type} (l : List S) (fm c : Nat) :
    (sendLoop l fm c).2.map Prod.fst =
      l.flatMap (fun s => List.replicate fm s) := by
  induction l generalizing c with
  | nil => simp [sendLoop]
  | cons s rest ih =>
      simp only [sendLoop, List.map_append, List.flatMap_cons, ih]
      congr 1
      rw [List.map_map]
      apply List.eq_replicate_iff.mpr
      constructor
      · simp
      · intro b hb
        rw [List.mem_map] at hb
        obtain ⟨i, _hmem, hbi⟩ := hb
        exact hbi.symm

theorem sendLoop_length {S : Type} (l : List S) (fm c : Nat) :
    (sendLoop l fm c).2.length = l.length * fm := by
  have h := sendLoop_map_snd l fm c
  have := congrArg List.length h
  simpa using this

end ForwarderMutable

/-- C6: receiving `TestData(seq)` accepts iff `seq = next_seq` (cursor
becomes next_seq + 1) or `seq = 0` (cursor becomes 1); otherwise it is a
sequence error carrying the message (the panic path). On acceptance
`received_count` is incremented and the action emits `TestData(send_count)`
to each downstream sender `forwarding_multiplier` times, incrementing
`send_count` after each emission — exactly |senders| ·
forwarding_multiplier messages with consecutive payloads, each sender
receiving `forwarding_multiplier` of them in order — followed by the
notification emission when the new `received_count` equals `notify_count`. -/
theorem forwarder_testdata_behavior (f : ForwarderMutable Nat)
    (seq id : Nat) (pick : Option Nat) :
    forwarderReceive f (TestMessage.TestData seq) id pick =
      (if seq = f.next_seq ∨ seq = 0 then
        Except.ok
          ({ f with
              next_seq := if seq = f.next_seq then f.next_seq + 1 else 1,
              received_count := f.received_count + 1,
              send_count :=
                f.send_count + f.senders.length * f.forwarding_multiplier },
           (ForwarderMutable.sendLoop f.senders f.forwarding_multiplier
               f.send_count).2 ++
             (if f.received_count + 1 = f.notify_count then
                (match f.notify_sender with
                 | some n => [(n, TestMessage.TestData (f.received_count + 1))]
                 | none => [])
              else []))
       else Except.error (TestMessage.TestData seq)) ∧
    (ForwarderMutable.sendLoop f.senders f.forwarding_multiplier
        f.send_count).2.length =
      f.senders.length * f.forwarding_multiplier ∧
    (ForwarderMutable.sendLoop f.senders f.forwarding_multiplier
        f.send_count).2.map Prod.snd =
      (List.range (f.senders.length * f.forwarding_multiplier)).map
        (fun i => TestMessage.TestData (f.send_count + i)) ∧
    (ForwarderMutable.sendLoop f.senders f.forwarding_multiplier
        f.send_count).2.map Prod.fst =
      f.senders.flatMap (fun s => List.replicate f.forwarding_multiplier s) := by
  obtain ⟨fid, senders, rc, sc, nc, ns, fm, nseq⟩ := f
  refine ⟨?_, ForwarderMutable.sendLoop_length _ _ _,
    ForwarderMutable.sendLoop_map_snd _ _ _, ForwarderMutable.sendLoop_map_fst _ _ _⟩
  by_cases h1 : seq = nseq
  · subst h1
    simp [forwarderReceive, ForwarderMutable.handle_config,
      ForwarderMutable.validate_sequence, ForwarderMutable.handle_action,
      ForwarderMutable.handle_notification, ForwarderMutable.sendLoop_fst]
    cases ns <;> rfl
  · by_cases h2 : seq = 0
    · subst h2
      simp [forwarderReceive, ForwarderMutable.handle_config,
        ForwarderMutable.validate_sequence, ForwarderMutable.handle_action,
        ForwarderMutable.handle_notification, ForwarderMutable.sendLoop_fst, h1]
      cases ns <;> rfl
    · simp [forwarderReceive, ForwarderMutable.handle_config,
        ForwarderMutable.validate_sequence, h1, h2]

/-! ## Machine adapter driver loop (server-core/src/machine_adpter.rs)

`MachineAdapter::start` spawns a single task running, in program order:
`connected`, then a loop that per received command clears the outbound
queue, calls `receive` (which pushes `(sender, instruction)` pairs, in
order, via `MachineSender::send`), then awaits `do_send` on each queued pair
in queue order; when the receiver closes, `disconnected`. Being one
sequential task, its observable behaviour is the trace of these steps in
program order. The machine is abstracted as a state-passing receive
callback `recv : σ → M → σ × List (S × M)` returning the pairs it pushed,
in push order; `cmds` is the sequence of commands the mailbox delivers. -/

/-- Observable events of one adapter task. -/
inductive AdapterEvent (S M : Type) where
  | connectedEv
  | clearedEv
  | receivedEv (cmd : M)
  | dispatchedEv (target : S) (cmd : M)
  | disconnectedEv
deriving DecidableEq, Repr

/-- The loop body of `MachineAdapter::start`, after `connected`: per
command, clear the queue, invoke receive, dispatch the queued sends in
order; on mailbox close, `disconnected`. -/
def adapterLoop {σ S M : Type} (recv : σ → M → σ × List (S × M)) :
    σ → List M → List (AdapterEvent S M)
  | _, [] => [AdapterEvent.disconnectedEv]
  | st, c :: cs =>
      let r := recv st c
      AdapterEvent.clearedEv :: AdapterEvent.receivedEv c ::
        (r.2.map (fun p => AdapterEvent.dispatchedEv p.1 p.2) ++
          adapterLoop recv r.1 cs)

/-- The full trace of the spawned adapter task (`MachineAdapter::start`). -/
def adapterTrace {σ S M : Type} (recv : σ → M → σ × List (S × M))
    (st : σ) (cmds : List M) : List (AdapterEvent S M) :=
  AdapterEvent.connectedEv :: adapterLoop recv st cmds

/-- The per-receive blocks the claim describes: for the k-th delivered
command, one block holding the cleared-buffer mark, the receive invocation,
and the dispatch of every outbound send that receive queued, in the order
the application enqueued them. This definition follows the words of the
claim, for comparison against the source-level trace. -/
def specReceiveBlocks {σ S M : Type} (recv : σ → M → σ × List (S × M)) :
    σ → List M → List (List (AdapterEvent S M))
  | _, [] => []
  | st, c :: cs =>
      ([AdapterEvent.clearedEv, AdapterEvent.receivedEv c] ++
        ((recv st c).2.map (fun p => AdapterEvent.dispatchedEv p.1 p.2))) ::
        specReceiveBlocks recv (recv st c).1 cs

/-- C3: the adapter task's trace is exactly `connected`, then one contiguous
block per delivered command, then `disconnected`. Block k holds a cleared
outbound buffer, then the invocation of `receive` on command k, then the
dispatch of precisely the outbound sends that this receive enqueued, in
enqueue order. Hence `receive(k+1)` is never invoked before `receive(k)` has
returned and all of its queued sends have been dispatched, and the buffer is
cleared before each receive. -/
theorem adapter_trace_serializes_receives {σ S M : Type}
    (recv : σ → M → σ × List (S × M)) (st : σ) (cmds : List M) :
    adapterTrace recv st cmds =
      AdapterEvent.connectedEv ::
        ((specReceiveBlocks recv st cmds).flatten ++
          [AdapterEvent.disconnectedEv]) ∧
    (specReceiveBlocks recv st cmds).length = cmds.length ∧
    (specReceiveBlocks recv st cmds).map (fun b => b.take 2) =
      cmds.map (fun c => [AdapterEvent.clearedEv, AdapterEvent.receivedEv c]) := by
  refine ⟨?_, ?_, ?_⟩
  · unfold adapterTrace
    congr 1
    induction cmds generalizing st with
    | nil => simp [adapterLoop, specReceiveBlocks]
    | cons c cs ih =>
        simp only [adapterLoop, specReceiveBlocks, List.flatten_cons]
        rw [ih]
        simp
  · induction cmds generalizing st with
    | nil => rfl
    | cons c cs ih => simp [specReceiveBlocks, ih]
  · induction cmds generalizing st with
    | nil => rfl
    | cons c cs ih => simp [specReceiveBlocks, ih]

/-! ## Background task (server-core/src/background_task.rs)

`BackgroundTask::detach(task, label)` creates an unbounded channel, keeps
its only `Sender` in the returned handle, spawns `t1` (awaiting a recv on
the channel), fuses the wrapped task as `t2`, and detaches a supervisor
that selects over `t1` and `t2`; when the select resolves the supervisor's
future completes and the pinned `t2` handle is dropped. `cancel()` closes
the channel via `Sender::close`.

The surrounding channel and task semantics (from the smol / async-channel
crates the source builds on) that the model bakes in:
a channel is closed by `close()` and equally when its last Sender is
dropped; `recv` on a closed, empty channel fails (and nothing is ever sent
on this channel, so it is always empty); dropping a (non-detached) smol
Task handle cancels the task. The state machine below has one transition
per externally observable step: the handle's `cancel`, the drop of the
handle (which drops the channel's only Sender), and a scheduler step that
lets the supervisor observe the channel. -/

structure BtState where
  senderAlive : Bool
  channelClosed : Bool
  supervisorDone : Bool
  taskCancelled : Bool
deriving DecidableEq, Repr

/-- State right after `BackgroundTask::detach` returns: the handle holds
the live Sender, the channel is open, the supervisor is selecting, the
wrapped task runs. -/
def btInit : BtState :=
  { senderAlive := true, channelClosed := false,
    supervisorDone := false, taskCancelled := false }

inductive BtOp where
  | cancel
  | dropHandle
  | supervisorPoll
deriving DecidableEq, Repr

/-- One step of the background-task system. `cancel` closes the channel
(`self.sender.close()`); dropping the handle drops the channel's only
Sender, which also closes the channel; a supervisor poll completes the
select via the `t1` branch once the channel is closed, dropping — and so
cancelling — the wrapped task. -/
def btStep (st : BtState) : BtOp → BtState
  | BtOp.cancel => { st with channelClosed := true }
  | BtOp.dropHandle => { st with senderAlive := false, channelClosed := true }
  | BtOp.supervisorPoll =>
      if st.channelClosed ∧ ¬ st.supervisorDone then
        { st with supervisorDone := true, taskCancelled := true }
      else st

/-- Run a sequence of steps. -/
def btRun (st : BtState) : List BtOp → BtState
  | [] => st
  | op :: ops => btRun (btStep st op) ops

/-- C7 counterexample: dropping the handle does cancel the wrapped task.
From the initial state, dropping the handle (no `cancel()` call occurs in
the sequence) followed by one supervisor step leaves the wrapped task
cancelled, because the drop of the handle's only Sender closes the close
channel exactly as `cancel()` would. -/
theorem backgroundTask_drop_cancels :
    (btRun btInit [BtOp.dropHandle, BtOp.supervisorPoll]).taskCancelled = true ∧
    BtOp.cancel ∉ [BtOp.dropHandle, BtOp.supervisorPoll] := by
  refine ⟨rfl, by decide⟩

/-- C7 amended: `cancel()` is idempotent, but dropping the handle is not
inert: it closes the close channel exactly as `cancel()` does (differing
only in the Sender liveness), and a supervisor poll cancels the wrapped
task precisely when the channel has been closed — whether by `cancel()` or
by dropping the handle. -/
theorem backgroundTask_cancel_idempotent_drop_not_inert (st : BtState) :
    btStep (btStep st BtOp.cancel) BtOp.cancel = btStep st BtOp.cancel ∧
    btStep st BtOp.dropHandle =
      { btStep st BtOp.cancel with senderAlive := false } ∧
    (btStep st BtOp.supervisorPoll).taskCancelled =
      (st.taskCancelled || (st.channelClosed && !st.supervisorDone)) := by
  obtain ⟨sa, cc, sd, tc⟩ := st
  refine ⟨rfl, rfl, ?_⟩
  cases cc <;> cases sd <;> cases tc <;> rfl

/-! ## Network controller (components/src/network.rs)

The `NetCmd` instruction set is declared in `net_instructionset.rs`, which
is not among the provided sources; its variants and payloads are modelled
from the spec's command table (§4.5) and from their use sites in
`network.rs`. Sender handles (`NetSender`) are modelled as `Nat`; bytes as
`Nat`. -/

/-- Modelled from the spec: the `NetCmd` command/event protocol of §4.5
(`net_instructionset.rs` is not under the provided sources). -/
inductive NetCmd where
  | BindTcpListener (addr : String) (reply : Nat)
  | BindUdpListener (addr : String) (reply : Nat)
  | BindConn (conn : Nat) (reply : Nat)
  | NewConn (conn : Nat) (local_addr remote_addr : String)
  | RecvBytes (conn : Nat) (bytes : List Nat)
  | SendBytes (conn : Nat) (bytes : List Nat)
  | SendPkt (conn : Nat) (addr : String) (bytes : List Nat)
  | CloseConn (conn : Nat)
  | Stop
deriving DecidableEq, Repr

/-- The per-connection state `close_conn` touches: the `BackgroundTask`
cancel flag of the reader and the socket shutdown flag. -/
structure Connection where
  reader_cancelled : Bool
  socket_shutdown : Bool
deriving DecidableEq, Repr

/-- NetController::close_conn — `get_mut(conn_id)`; when the entry is live,
cancel its reader task and shut down its socket. The slab is a list of
occupied (`some`) or vacant (`none`) entries. Note the source performs no
`remove` on the slab. -/
def close_conn (connections : List (Option Connection)) (conn_id : Nat) :
    List (Option Connection) :=
  match connections[conn_id]? with
  | some (some c) =>
      connections.set conn_id
        (some { c with reader_cancelled := true, socket_shutdown := true })
  | _ => connections

/-- Key handed out by the slab's `vacant_entry()`: the first vacant index,
or the length when no entry is vacant. -/
def vacant_key : List (Option Connection) → Nat
  | [] => 0
  | none :: _ => 0
  | some _ :: rest => vacant_key rest + 1

/-- C8 counterexample: `close_conn` does not free the slab entry. On the
one-entry slab holding a live connection, handling CloseConn(0) cancels the
reader and shuts the socket down but leaves index 0 occupied, and the next
`vacant_entry()` key is 1, not a reuse of the evicted 0 — no eviction ever
happens (the source never calls `remove`). -/
theorem close_conn_does_not_free_entry :
    close_conn [some { reader_cancelled := false, socket_shutdown := false }] 0 =
      [some { reader_cancelled := true, socket_shutdown := true }] ∧
    (close_conn [some { reader_cancelled := false, socket_shutdown := false }] 0)[0]? ≠
      some none ∧
    vacant_key
        (close_conn [some { reader_cancelled := false, socket_shutdown := false }] 0) =
      1 := by
  refine ⟨rfl, by decide, rfl⟩

/-- C8 amended: handling `CloseConn(conn_id)` for a live connection cancels
its reader task and shuts down its socket, but does not remove the slab
entry: the entry stays occupied (so `conn_id` is simply never freed for
reuse), every other entry is untouched, and the slab's size is unchanged. -/
theorem close_conn_cancels_and_keeps_entry
    (connections : List (Option Connection)) (conn_id : Nat) (c : Connection)
    (hlive : connections[conn_id]? = some (some c)) :
    close_conn connections conn_id =
      connections.set conn_id
        (some { c with reader_cancelled := true, socket_shutdown := true }) ∧
    (close_conn connections conn_id)[conn_id]? =
      some (some { c with reader_cancelled := true, socket_shutdown := true }) ∧
    (close_conn connections conn_id).length = connections.length ∧
    ∀ j, j ≠ conn_id →
      (close_conn connections conn_id)[j]? = connections[j]? := by
  have hdef : close_conn connections conn_id =
      connections.set conn_id
        (some { c with reader_cancelled := true, socket_shutdown := true }) := by
    unfold close_conn
    rw [hlive]
  have hlt : conn_id < connections.length := by
    by_contra hge
    rw [List.getElem?_eq_none (Nat.le_of_not_lt hge)] at hlive
    cases hlive
  refine ⟨hdef, ?_, ?_, ?_⟩
  · rw [hdef]
    simp [List.getElem?_set_self, hlt]
  · rw [hdef, List.length_set]
  · intro j hj
    rw [hdef]
    exact List.getElem?_set_ne (Ne.symm hj)

/-- Witness for the amended C8 theorem on a concrete two-entry slab. -/
theorem close_conn_cancels_and_keeps_entry_witness :
    close_conn
        [some { reader_cancelled := false, socket_shutdown := false }, none] 0 =
      [some { reader_cancelled := false, socket_shutdown := false }, none].set 0
        (some { reader_cancelled := true, socket_shutdown := true }) ∧
    (close_conn
        [some { reader_cancelled := false, socket_shutdown := false }, none] 0)[0]? =
      some (some { reader_cancelled := true, socket_shutdown := true }) ∧
    (close_conn
        [some { reader_cancelled := false, socket_shutdown := false }, none]
        0).length =
      [some { reader_cancelled := false, socket_shutdown := false },
        (none : Option Connection)].length := by
  have h := close_conn_cancels_and_keeps_entry
    [some { reader_cancelled := false, socket_shutdown := false }, none] 0
    { reader_cancelled := false, socket_shutdown := false } rfl
  exact ⟨h.1, h.2.1, h.2.2.1⟩

/-! ## The per-connection reader loop (NetController::bind_conn)

One loop iteration allocates `vec![0u8; 1024]`, reads into it, and acts on
the result. A read delivering `data` leaves the buffer holding `data`
followed by the untouched zero tail; `set_len(bytes_read)` keeps its first
`bytes_read` entries. The stream is modelled as the list of results the
successive `read` calls return. -/

/-- Result of one `stream.read(&mut buf)` call: the bytes it wrote (their
count is the returned `Ok(n)`), or an error. -/
inductive ReadResult where
  | ok (data : List Nat)
  | err
deriving DecidableEq, Repr

/-- The 1024-byte buffer after `read` wrote `data` into its front. -/
def readBuf (data : List Nat) : List Nat :=
  data ++ List.replicate (1024 - data.length) 0

/-- The reader loop of `NetController::bind_conn`, producing the commands it
sends, each paired with its destination mailbox (`app` is the `sender`
argument of BindConn, `lis` the connection's `listener_sender`). `Ok(0)` or
an error sends CloseConn to both and breaks; `Ok(n)` with n > 0 truncates
the buffer to the first n bytes and sends RecvBytes to the app mailbox. -/
def readerLoop (conn app lis : Nat) : List ReadResult → List (Nat × NetCmd)
  | [] => []
  | ReadResult.ok data :: rest =>
      if data.length = 0 then
        [(app, NetCmd.CloseConn conn), (lis, NetCmd.CloseConn conn)]
      else
        (app, NetCmd.RecvBytes conn ((readBuf data).take data.length)) ::
          readerLoop conn app lis rest
  | ReadResult.err :: _rest =>
      [(app, NetCmd.CloseConn conn), (lis, NetCmd.CloseConn conn)]

/-- C9: per iteration of the reader loop — the buffer is 1024 bytes; on
`Ok(0)` or a read error the loop sends CloseConn(conn) to the application
mailbox and then to the listener's mailbox and exits (the remaining results
are never read); on `Ok(n)` with n > 0 it sends RecvBytes(conn, buf) where
buf is exactly the n bytes the read delivered, and continues. -/
theorem reader_loop_iteration (conn app lis : Nat) (data : List Nat)
    (rest : List ReadResult) (hlen : data.length ≤ 1024) (hne : data ≠ []) :
    (readBuf data).length = 1024 ∧
    readerLoop conn app lis (ReadResult.ok data :: rest) =
      (app, NetCmd.RecvBytes conn data) :: readerLoop conn app lis rest ∧
    readerLoop conn app lis (ReadResult.ok [] :: rest) =
      [(app, NetCmd.CloseConn conn), (lis, NetCmd.CloseConn conn)] ∧
    readerLoop conn app lis (ReadResult.err :: rest) =
      [(app, NetCmd.CloseConn conn), (lis, NetCmd.CloseConn conn)] ∧
    readerLoop conn app lis [] = [] := by
  have hbuf : (readBuf data).take data.length = data := by
    unfold readBuf
    rw [List.take_append_of_le_length (Nat.le_refl _)]
    exact List.take_length data
  refine ⟨?_, ?_, rfl, rfl, rfl⟩
  · unfold readBuf
    rw [List.length_append, List.length_replicate]
    omega
  · have hlz : ¬ (data.length = 0) := by
      intro h0
      exact hne (List.eq_nil_of_length_eq_zero h0)
    simp only [readerLoop]
    rw [if_neg hlz, hbuf]

/-- Witness for the C9 theorem at a concrete one-byte read. -/
theorem reader_loop_iteration_witness :
    (readBuf [7]).length = 1024 ∧
    readerLoop 1 2 3 [ReadResult.ok [7]] =
      (2, NetCmd.RecvBytes 1 [7]) :: readerLoop 1 2 3 [] ∧
    readerLoop 1 2 3 [ReadResult.ok []] =
      [(2, NetCmd.CloseConn 1), (3, NetCmd.CloseConn 1)] ∧
    readerLoop 1 2 3 [ReadResult.err] =
      [(2, NetCmd.CloseConn 1), (3, NetCmd.CloseConn 1)] ∧
    readerLoop 1 2 3 [] = [] := by
  have h := reader_loop_iteration 1 2 3 [7] [] (by decide) (by decide)
  exact h

/-! ## Global configuration cells

`machine-foundation/src/machine_adapter.rs` holds the `default_channel_max`
atomic cell; `server-core/src/lib.rs` holds `default_num_threads` and
exports `get_default_num_threads`, re-exported by machine-foundation's lib.
The two cells are the per-process mutable state. -/

structure GlobalConfig where
  channel_max : Nat
  num_threads : Nat
deriving DecidableEq, Repr

/-- server-core's get_default_num_threads. -/
def get_default_num_threads (g : GlobalConfig) : Nat := g.num_threads

/-- machine-foundation's get_default_channel_max. -/
def get_default_channel_max (g : GlobalConfig) : Nat := g.channel_max

/-- machine-foundation's set_default_channel_max: it reads
`get_default_num_threads()` into `res`, stores `capacity` into the
`default_channel_max` cell, and returns `res`. -/
def set_default_channel_max (capacity : Nat) (g : GlobalConfig) :
    Nat × GlobalConfig :=
  (get_default_num_threads g, { g with channel_max := capacity })

/-- Modelled from the spec: machine-foundation's `machine.rs` (its `create`
factory) is not among the provided sources; per §4.4 `create(actor)` gives
the new machine a bounded mailbox of the default capacity, i.e. of capacity
`get_default_channel_max()` at the time of the call. -/
def create_mailbox_capacity (g : GlobalConfig) : Nat := get_default_channel_max g

/-- C10: `set_default_channel_max(c)` stores c as the default capacity used
by subsequent create calls, yet returns the current default thread count
(`get_default_num_threads()`), not the previous default capacity — shown
concretely with capacity cell 20 and thread cell 3, where the call returns
3 and not the prior capacity 20. -/
theorem set_default_channel_max_returns_thread_count :
    (∀ (g : GlobalConfig) (c : Nat),
      (set_default_channel_max c g).1 = get_default_num_threads g ∧
      get_default_channel_max (set_default_channel_max c g).2 = c ∧
      create_mailbox_capacity (set_default_channel_max c g).2 = c ∧
      get_default_num_threads (set_default_channel_max c g).2 =
        get_default_num_threads g) ∧
    (set_default_channel_max 7 { channel_max := 20, num_threads := 3 }).1 = 3 ∧
    (3 : Nat) ≠ 20 := by
  refine ⟨fun g c => ⟨rfl, rfl, rfl, rfl⟩, rfl, by decide⟩

end RustServer
